import Mathlib

/-!
Verification development for the jobs debugger module (`src/jobs/debugger.py`).

The module inspects rows of a `Job` table: it classifies pending jobs that look
stuck, selects reclaim candidates (stale or expired pending/running jobs),
optionally mutates them to a terminal `failed` status, inspects single jobs by
id, and summarises status counts and recent jobs.

Shallow embedding choices:
- timestamps are `Int` (seconds); `timedelta(minutes=m)` becomes `m * 60`;
- the ambient clock `timezone.now()` becomes an explicit `now : Int` parameter;
- the job table is a `List Job` snapshot; a Django queryset filter becomes
  `List.filter`, `order_by` becomes a stable `List.insertionSort`,
  `union` (SQL UNION, deduplicating) keeps the left list and appends the
  right list minus rows whose id already occurs on the left;
- `job.save()` is a persistence callback `persistOk : String → Bool` telling
  whether the save for that row id succeeds; a raised exception is the
  `none` result of the run (the store at that point is returned alongside).
-/

namespace JobsDebugger

/-- A row of the `Job` table, with the fields the debugger module reads. -/
structure Job where
  id : String
  channel : String
  status : String
  created : Int
  started_at : Option Int
  finished_at : Option Int
  expires_at : Option Int
  attempt : Nat
  max_retries : Nat
  runner_id : Option String
  last_error : Option String
deriving DecidableEq, Repr

/-- Embeds `jobs_query = Job.objects.all(); if channel: jobs_query.filter(channel=channel)`. -/
def filterChannel (channel : Option String) (store : List Job) : List Job :=
  match channel with
  | none => store
  | some c => store.filter (fun j => j.channel == c)

/-- Holds when `expires_at` is present and strictly before `now` (SQL `expires_at < now`
is false on NULL). -/
def expiresBefore (now : Int) (j : Job) : Bool :=
  match j.expires_at with
  | some t => decide (t < now)
  | none => false

/-- Ascending order on `created` (Django `order_by('created')`). -/
def createdLE (a b : Job) : Prop := a.created ≤ b.created

instance : DecidableRel createdLE := fun a b =>
  inferInstanceAs (Decidable (a.created ≤ b.created))

instance : IsTotal Job createdLE := ⟨fun a b => Int.le_total a.created b.created⟩

instance : IsTrans Job createdLE := ⟨fun _ _ _ h1 h2 => le_trans h1 h2⟩

/-- Descending order on `created` (Django `order_by('-created')`). -/
def createdGE (a b : Job) : Prop := b.created ≤ a.created

instance : DecidableRel createdGE := fun a b =>
  inferInstanceAs (Decidable (b.created ≤ a.created))

instance : IsTotal Job createdGE := ⟨fun a b => Int.le_total b.created a.created⟩

instance : IsTrans Job createdGE := ⟨fun _ _ _ h1 h2 => le_trans h2 h1⟩

/-- The per-job verdict printed by `debug_stuck_jobs` (lines 35-41):
`EXPIRED!`, `POSSIBLY STUCK (pending > 5min)`, or `Seems normal`. -/
inductive Classification where
  | expiredFlag
  | possiblyStuck
  | normal
deriving DecidableEq, Repr

/-- Lines 36-41 of `debug_stuck_jobs`: `if job.expires_at and
job.expires_at < timezone.now(): EXPIRED elif job.created < timezone.now() -
timedelta(minutes=5) and job.status == 'pending': POSSIBLY STUCK else: normal`. -/
def classifyJob (now : Int) (j : Job) : Classification :=
  if expiresBefore now j then .expiredFlag
  else if decide (j.created < now - 5 * 60) && (j.status == "pending") then .possiblyStuck
  else .normal

/-- Embeds `debug_stuck_jobs`: filters to `status='pending'`, orders by `created`,
reports the total pending count, and classifies only the first 10. -/
def debug_stuck_jobs (channel : Option String) (now : Int) (store : List Job) :
    Nat × List (Job × Classification) :=
  let q := filterChannel channel store
  let pending := List.insertionSort createdLE (q.filter (fun j => j.status == "pending"))
  (pending.length, (pending.take 10).map (fun j => (j, classifyJob now j)))

/-- Lines 57-60: `jobs_query.filter(status__in=['pending','running'],
created__lt=now - timedelta(minutes=10))`. -/
def potentiallyStuck (now : Int) (q : List Job) : List Job :=
  q.filter (fun j =>
    (j.status == "pending" || j.status == "running") && decide (j.created < now - 10 * 60))

/-- Lines 64-67: `jobs_query.filter(expires_at__lt=now,
status__in=['pending','running'])`. -/
def expiredJobs (now : Int) (q : List Job) : List Job :=
  q.filter (fun j =>
    expiresBefore now j && (j.status == "pending" || j.status == "running"))

/-- Embeds `debug_clear_stuck_logic`: one `now = timezone.now()` (line 56), two
filters over the channel-restricted query, both returned. -/
def debug_clear_stuck_logic (channel : Option String) (now : Int) (store : List Job) :
    List Job × List Job :=
  let q := filterChannel channel store
  (potentiallyStuck now q, expiredJobs now q)

/-- Django queryset `.union()` is SQL UNION: it deduplicates rows. Rows are
keyed by primary key `id`, so the right operand contributes only rows whose
id does not already occur on the left. -/
def qsUnion (a b : List Job) : List Job :=
  a ++ b.filter (fun j => !(a.any (fun x => x.id == j.id)))

/-- The candidate set of `manual_clear_stuck` line 81:
`all_stuck = potentially_stuck.union(expired_jobs)`. -/
def allStuckOf (channel : Option String) (now : Int) (store : List Job) : List Job :=
  let (ps, ex) := debug_clear_stuck_logic channel now store
  qsUnion ps ex

/-- Lines 90-92: set `status='failed'`, `finished_at=now`,
`last_error='Cleared as stuck job'` on the fetched row. -/
def markCleared (now : Int) (j : Job) : Job :=
  { j with status := "failed", finished_at := some now,
           last_error := some ("Cleared as stuck job") }

/-- Embeds `job.save()`: write the mutated row back to the table, replacing rows
with the same id. -/
def saveJob (j : Job) (store : List Job) : List Job :=
  store.map (fun x => if x.id == j.id then j else x)

/-- The `for job in all_stuck` loop of `manual_clear_stuck` (lines 86-94):
in a dry run each candidate only bumps `cleared_count`; otherwise the row is
mutated and saved before the bump. A failing save raises, which aborts the
loop: the result is `none` together with the store as mutated so far. -/
def clearLoop (dryRun : Bool) (persistOk : String → Bool) (now : Int) :
    List Job → Nat → List Job → Option Nat × List Job
  | [], count, store => (some count, store)
  | j :: rest, count, store =>
    if dryRun then clearLoop dryRun persistOk now rest (count + 1) store
    else if persistOk j.id then
      clearLoop dryRun persistOk now rest (count + 1) (saveJob (markCleared now j) store)
    else (none, store)

/-- Embeds `manual_clear_stuck(channel=None, dry_run=True)`: select candidates from
the snapshot, then run the clearing loop against the live store. -/
def manual_clear_stuck (channel : Option String) (dry_run : Bool)
    (persistOk : String → Bool) (now : Int) (store : List Job) :
    Option Nat × List Job :=
  clearLoop dry_run persistOk now (allStuckOf channel now store) 0 store

/-- The default invocation of `manual_clear_stuck`: the Python signature is
`manual_clear_stuck(channel=None, dry_run=True)`, so a call that does not
pass `dry_run` runs with `dry_run=True`. -/
def manual_clear_stuck_default (channel : Option String)
    (persistOk : String → Bool) (now : Int) (store : List Job) :
    Option Nat × List Job :=
  manual_clear_stuck channel true persistOk now store

/-- Embeds `inspect_job`: `Job.objects.get(id=job_id)` returns the row, or the
`DoesNotExist` branch returns `None` (line 136). -/
def inspect_job (job_id : String) (store : List Job) : Option Job :=
  store.find? (fun j => j.id == job_id)

/-- Embeds `jobs_summary` lines 148-149: `.values('status').annotate(count=
Count('status')).order_by('status')` — one `(status, count)` pair per
distinct status, ordered ascending by status. -/
def statusCountsOf (store : List Job) : List (String × Nat) :=
  (List.insertionSort (fun a b => a ≤ b) (store.map Job.status).dedup).map
    (fun s => (s, (store.filter (fun j => j.status == s)).length))

/-- Embeds `jobs_summary` line 163: `jobs_query.order_by('-created')[:5]` — the
first 5 rows of the table sorted descending by `created`. -/
def recentJobsOf (store : List Job) : List Job :=
  (List.insertionSort createdGE store).take 5

/-- The computed content of `jobs_summary`: status counts and the recent
jobs list over the channel-restricted query. -/
def jobs_summary (channel : Option String) (store : List Job) :
    List (String × Nat) × List Job :=
  let q := filterChannel channel store
  (statusCountsOf q, recentJobsOf q)

/-- Error outcomes the debugger operations could surface to a caller. -/
inductive DebugError where
  | configurationError : String → DebugError
  | notFoundError : String → DebugError
deriving DecidableEq, Repr

/-- The row list computed by `find_old_pending_jobs` lines 171-181: cutoff
`now - timedelta(minutes=minutes)`, filter `status='pending',
created__lt=cutoff`, optional channel filter, `order_by('created')`. -/
def find_old_pending_list (minutes : Int) (channel : Option String)
    (now : Int) (store : List Job) : List Job :=
  let cutoff := now - minutes * 60
  let q := store.filter (fun j => (j.status == "pending") && decide (j.created < cutoff))
  let q2 := match channel with
    | none => q
    | some c => q.filter (fun j => j.channel == c)
  List.insertionSort createdLE q2

/-- Embeds `find_old_pending_jobs(minutes=10, channel=None)` lines 169-190. The
Python body performs no validation and cannot raise for any `minutes` or
`channel`, so the embedding always returns `Except.ok`. -/
def find_old_pending_jobs (minutes : Int) (channel : Option String)
    (now : Int) (store : List Job) : Except DebugError (List Job) :=
  .ok (find_old_pending_list minutes channel now store)

/-- The reclaim-candidacy predicate stated by the specification (section 4.1,
`SelectReclaimCandidates`): non-terminal status, and either older than the
10-minute reclaim threshold or expired. -/
def reclaimCandidate (now : Int) (j : Job) : Prop :=
  (j.status = "pending" ∨ j.status = "running") ∧
  (j.created < now - 10 * 60 ∨ ∃ t, j.expires_at = some t ∧ t < now)

/-! Concrete fixture rows used to exercise the theorems on closed inputs. -/

/-- Build a job row with the fields the debugger never writes left at their
defaults. -/
def mkJob (i c st : String) (cr : Int) (sa ex : Option Int) : Job :=
  { id := i, channel := c, status := st, created := cr, started_at := sa,
    finished_at := none, expires_at := ex, attempt := 0, max_retries := 3,
    runner_id := none, last_error := none }

/-- Old pending job, well past the 10-minute reclaim threshold at `now = 10000`. -/
def jOld : Job := mkJob ("a") ("email") ("pending") 0 none none

/-- Old running job that is also expired: lies in both reclaim sub-queries. -/
def jBoth : Job := mkJob ("b") ("email") ("running") 0 (some 10) (some 50)

/-- Fresh pending job: no reclaim criterion applies at `now = 10000`. -/
def jFresh : Job := mkJob ("c") ("email") ("pending") 9950 none none

/-- Finished job: terminal status, excluded from reclaim even though old. -/
def jDone : Job := mkJob ("d") ("email") ("finished") 0 (some 1) (some 5)

/-- Fresh but expired pending job: only the expiry criterion applies. -/
def jExpOnly : Job := mkJob ("e") ("email") ("pending") 9950 none (some 100)

/-- Expired pending job that is also stale: both classification predicates
apply at `now = 10000`. -/
def jExpStale : Job := mkJob ("h") ("email") ("pending") 0 none (some 50)

/-- A second old pending job, for two-candidate batches. -/
def jOld2 : Job := mkJob ("f") ("email") ("pending") 60 none none

/-- Fresh pending job created exactly at `now = 1000`. -/
def freshPending : Job := mkJob ("g") ("email") ("pending") 1000 none none

/-- Five-row table exercising every reclaim case at `now = 10000`. -/
def demoStore : List Job := [jOld, jBoth, jFresh, jDone, jExpOnly]

/-- Persistence callback whose saves always succeed. -/
def pAllOk : String → Bool := fun _ => true

/-- The table after a successful non-dry clearing run over `demoStore`. -/
def clearedDemoStore : List Job :=
  (manual_clear_stuck none false pAllOk 10000 demoStore).2

/-- Two-candidate table whose first candidate's save fails. -/
def failStoreTwo : List Job := [jOld, jOld2]

/-- Persistence callback whose save fails exactly for row id `"a"`. -/
def persistFailsA : String → Bool := fun i => i != "a"

/-- Two pending jobs with equal `created`; snapshot lists id `"b"` first. -/
def tieB : Job := mkJob ("b") ("email") ("pending") 100 none none

/-- Tie partner of `tieB` with the smaller id `"a"`. -/
def tieA : Job := mkJob ("a") ("email") ("pending") 100 none none

/-- Snapshot holding the two tied rows with the larger id first. -/
def tieStore : List Job := [tieB, tieA]

/-- Eleven old pending rows: one more than the ten-row detail window of
`debug_stuck_jobs`. -/
def bigStore : List Job :=
  (List.range 11).map (fun k => mkJob (toString k) ("email") ("pending") (Int.ofNat k) none none)

/-! Helper lemmas about the query combinators. -/

lemma expiresBefore_eq_true {now : Int} {j : Job} :
    expiresBefore now j = true ↔ ∃ t, j.expires_at = some t ∧ t < now := by
  cases h : j.expires_at <;> simp [expiresBefore, h]

lemma mem_filterChannel {ch : Option String} {store : List Job} {j : Job} :
    j ∈ filterChannel ch store ↔
      j ∈ store ∧ (ch = none ∨ ch = some j.channel) := by
  cases ch with
  | none => simp [filterChannel]
  | some c =>
    simp only [filterChannel, List.mem_filter, beq_iff_eq, Option.some.injEq]
    constructor
    · rintro ⟨h1, h2⟩
      exact ⟨h1, Or.inr h2.symm⟩
    · rintro ⟨h1, h2 | h2⟩
      · exact absurd h2 (Option.some_ne_none c)
      · exact ⟨h1, h2.symm⟩

lemma filterChannel_sublist (ch : Option String) (store : List Job) :
    List.Sublist (filterChannel ch store) store := by
  cases ch with
  | none => exact List.Sublist.refl _
  | some c => exact List.filter_sublist _

lemma mem_potentiallyStuck {now : Int} {q : List Job} {j : Job} :
    j ∈ potentiallyStuck now q ↔
      j ∈ q ∧ (j.status = "pending" ∨ j.status = "running") ∧
        j.created < now - 10 * 60 := by
  simp [potentiallyStuck, List.mem_filter]

lemma mem_expiredJobs {now : Int} {q : List Job} {j : Job} :
    j ∈ expiredJobs now q ↔
      j ∈ q ∧ (∃ t, j.expires_at = some t ∧ t < now) ∧
        (j.status = "pending" ∨ j.status = "running") := by
  simp [expiredJobs, List.mem_filter, expiresBefore_eq_true]

lemma potentiallyStuck_sublist (now : Int) (q : List Job) :
    List.Sublist (potentiallyStuck now q) q := List.filter_sublist _

lemma expiredJobs_sublist (now : Int) (q : List Job) :
    List.Sublist (expiredJobs now q) q := List.filter_sublist _

lemma mem_qsUnion {a b : List Job} {j : Job} :
    j ∈ qsUnion a b ↔ j ∈ a ∨ (j ∈ b ∧ ∀ x ∈ a, x.id ≠ j.id) := by
  simp [qsUnion, List.mem_filter, List.any_eq_true]

lemma allStuckOf_eq (ch : Option String) (now : Int) (store : List Job) :
    allStuckOf ch now store =
      qsUnion (potentiallyStuck now (filterChannel ch store))
        (expiredJobs now (filterChannel ch store)) := rfl

/-- C1: a record is a reclaim candidate of `manual_clear_stuck` iff its
status is `pending` or `running` and it is either older than the 10-minute
threshold or expired; under the primary-key invariant (no two rows share an
id) the deduplicated union lists each record's id at most once. -/
theorem c1_reclaim_selection (ch : Option String) (now : Int) (store : List Job)
    (hids : (store.map Job.id).Nodup) :
    (∀ j, j ∈ allStuckOf ch now store ↔
        j ∈ filterChannel ch store ∧ reclaimCandidate now j) ∧
    ((allStuckOf ch now store).map Job.id).Nodup := by
  have hq : (List.map Job.id (filterChannel ch store)).Nodup :=
    hids.sublist ((filterChannel_sublist ch store).map Job.id)
  have hinj := List.inj_on_of_nodup_map hq
  constructor
  · intro j
    rw [allStuckOf_eq, mem_qsUnion]
    constructor
    · rintro (hps | ⟨hex, _⟩)
      · rcases mem_potentiallyStuck.mp hps with ⟨hjq, hst, hcr⟩
        exact ⟨hjq, hst, Or.inl hcr⟩
      · rcases mem_expiredJobs.mp hex with ⟨hjq, hexp, hst⟩
        exact ⟨hjq, hst, Or.inr hexp⟩
    · rintro ⟨hjq, hst, hcond⟩
      rcases hcond with hold | hexp
      · exact Or.inl (mem_potentiallyStuck.mpr ⟨hjq, hst, hold⟩)
      · by_cases hold : j.created < now - 10 * 60
        · exact Or.inl (mem_potentiallyStuck.mpr ⟨hjq, hst, hold⟩)
        · refine Or.inr ⟨mem_expiredJobs.mpr ⟨hjq, hexp, hst⟩, ?_⟩
          intro x hx hxid
          rcases mem_potentiallyStuck.mp hx with ⟨hxq, _, hxcr⟩
          have hxj : x = j := hinj hxq hjq hxid
          exact hold (hxj ▸ hxcr)
  · rw [allStuckOf_eq, qsUnion, List.map_append]
    refine List.Nodup.append ?_ ?_ ?_
    · exact hq.sublist ((potentiallyStuck_sublist now _).map Job.id)
    · exact hq.sublist
        (((List.filter_sublist _).trans (expiredJobs_sublist now _)).map Job.id)
    · intro i hi1 hi2
      rcases List.mem_map.mp hi1 with ⟨x, hx, hxi⟩
      rcases List.mem_map.mp hi2 with ⟨y, hy, hyi⟩
      rcases List.mem_filter.mp hy with ⟨_, hycond⟩
      have hnone : ∀ z ∈ potentiallyStuck now (filterChannel ch store), ¬(z.id = y.id) := by
        simpa using hycond
      exact hnone x hx (hxi.trans hyi.symm)

/-- C1 witness: on the demo table at `now = 10000`, the old expired running
job `jBoth` is selected and satisfies the predicate, and candidate ids are
pairwise distinct. -/
theorem c1_witness :
    (jBoth ∈ filterChannel none demoStore ∧ reclaimCandidate 10000 jBoth) ∧
    ((allStuckOf none 10000 demoStore).map Job.id).Nodup :=
  ⟨((c1_reclaim_selection none 10000 demoStore (by decide)).1 jBoth).mp (by decide),
   (c1_reclaim_selection none 10000 demoStore (by decide)).2⟩

/-- C2: an expired non-terminal record is flagged `EXPIRED` by
`debug_stuck_jobs` regardless of its age: the expiry branch is the first
arm of the `if`/`elif` chain, so it wins over the stale-pending flag. -/
theorem c2_expired_priority (now : Int) (j : Job) (t : Int)
    (hexp : j.expires_at = some t) (hlt : t < now)
    (_hstat : j.status = "pending" ∨ j.status = "running") :
    classifyJob now j = .expiredFlag := by
  have hb : expiresBefore now j = true := expiresBefore_eq_true.mpr ⟨t, hexp, hlt⟩
  simp [classifyJob, hb]

/-- C2 witness: `jExpStale` is expired and also satisfies the stale-pending
predicate, yet is classified as expired. -/
theorem c2_witness :
    classifyJob 10000 jExpStale = .expiredFlag ∧
    jExpStale.created < 10000 - 5 * 60 ∧ jExpStale.status = "pending" :=
  ⟨c2_expired_priority 10000 jExpStale 50 rfl (by decide) (Or.inl rfl),
   by decide, rfl⟩

/-- C6: when no record carries the requested id, `inspect_job` takes the
`DoesNotExist` branch and surfaces the not-found outcome (`none`) to the
caller. -/
theorem c6_inspect_not_found (job_id : String) (store : List Job)
    (h : ∀ j ∈ store, j.id ≠ job_id) :
    inspect_job job_id store = none := by
  simp only [inspect_job, List.find?_eq_none, beq_iff_eq]
  exact h

/-- C6 witness: inspecting an absent id on the demo table yields `none`. -/
theorem c6_witness : inspect_job ("zzz") demoStore = none :=
  c6_inspect_not_found ("zzz") demoStore (by decide)

/-- A dry-run clearing loop touches no row and counts every candidate. -/
lemma clearLoop_dry (p : String → Bool) (now : Int) :
    ∀ (l : List Job) (cnt : Nat) (store : List Job),
      clearLoop true p now l cnt store = (some (cnt + l.length), store) := by
  intro l
  induction l with
  | nil => intro cnt store; simp [clearLoop]
  | cons j rest ih =>
    intro cnt store
    simp only [clearLoop, if_true]
    rw [ih]
    simp [Prod.ext_iff]
    omega

/-- A completed non-dry clearing loop had every save succeed and counted
every candidate. -/
lemma clearLoop_ok (p : String → Bool) (now : Int) :
    ∀ (l : List Job) (cnt : Nat) (store : List Job) (n : Nat) (store2 : List Job),
      clearLoop false p now l cnt store = (some n, store2) →
      (∀ j ∈ l, p j.id = true) ∧ n = cnt + l.length := by
  intro l
  induction l with
  | nil =>
    intro cnt store n store2 h
    simp only [clearLoop, Prod.mk.injEq, Option.some.injEq] at h
    refine ⟨fun j hj => absurd hj (List.not_mem_nil j), ?_⟩
    simp only [List.length_nil]
    omega
  | cons j rest ih =>
    intro cnt store n store2 h
    simp only [clearLoop, Bool.false_eq_true, if_false] at h
    by_cases hp : p j.id = true
    · rw [if_pos hp] at h
      rcases ih (cnt + 1) _ n store2 h with ⟨hall, hn⟩
      refine ⟨fun x hx => ?_, by simp; omega⟩
      rcases List.mem_cons.mp hx with hxj | hxr
      · rw [hxj]; exact hp
      · exact hall x hxr
    · rw [if_neg hp] at h
      simp [Prod.ext_iff] at h

/-- A failing save aborts the non-dry clearing loop with no count. -/
lemma clearLoop_fail (p : String → Bool) (now : Int) :
    ∀ (l : List Job) (cnt : Nat) (store : List Job),
      (∃ j ∈ l, p j.id = false) →
      (clearLoop false p now l cnt store).1 = none := by
  intro l
  induction l with
  | nil =>
    intro cnt store h
    rcases h with ⟨j, hj, _⟩
    exact absurd hj (List.not_mem_nil j)
  | cons j rest ih =>
    intro cnt store h
    simp only [clearLoop, Bool.false_eq_true, if_false]
    by_cases hp : p j.id = true
    · rw [if_pos hp]
      apply ih
      rcases h with ⟨x, hx, hxp⟩
      rcases List.mem_cons.mp hx with hxj | hxr
      · rw [hxj] at hxp; rw [hxp] at hp; exact absurd hp (by decide)
      · exact ⟨x, hxr, hxp⟩
    · rw [if_neg hp]

/-- C9: the Python default is `dry_run=True`, so an invocation that does not
pass `dry_run=False` reports every candidate but returns the table
unchanged: no row's status, `finished_at` or `last_error` is written. -/
theorem c9_default_is_dry (ch : Option String) (p : String → Bool)
    (now : Int) (store : List Job) :
    manual_clear_stuck_default ch p now store =
      (some (allStuckOf ch now store).length, store) ∧
    (manual_clear_stuck_default ch p now store).2 = store := by
  have h := clearLoop_dry p now (allStuckOf ch now store) 0 store
  constructor
  · simpa [manual_clear_stuck_default, manual_clear_stuck] using h
  · simp [manual_clear_stuck_default, manual_clear_stuck, h]

/-- C3: a dry run returns the table unchanged while still counting every
candidate, and any run that returns a count at all returns the number of
attempted candidates minus the number of candidates whose save failed
(necessarily zero in a completed run, since a failing save aborts). -/
theorem c3_dry_run_and_count (ch : Option String) (d : Bool) (p : String → Bool)
    (now : Int) (store : List Job) :
    manual_clear_stuck ch true p now store =
      (some (allStuckOf ch now store).length, store) ∧
    ∀ n store2, manual_clear_stuck ch d p now store = (some n, store2) →
      n = (allStuckOf ch now store).length -
        (if d then ([] : List Job)
         else (allStuckOf ch now store).filter (fun j => !(p j.id))).length := by
  constructor
  · have h := clearLoop_dry p now (allStuckOf ch now store) 0 store
    simpa [manual_clear_stuck] using h
  · intro n store2 hrun
    cases d with
    | true =>
      have h := clearLoop_dry p now (allStuckOf ch now store) 0 store
      rw [manual_clear_stuck] at hrun
      rw [h] at hrun
      simp only [Prod.mk.injEq, Option.some.injEq] at hrun
      simp [← hrun.1]
    | false =>
      have h := clearLoop_ok p now (allStuckOf ch now store) 0 store n store2
        (by simpa [manual_clear_stuck] using hrun)
      rcases h with ⟨hall, hn⟩
      have hfilter : (allStuckOf ch now store).filter (fun j => !(p j.id)) = [] := by
        rw [List.filter_eq_nil_iff]
        intro a ha
        simp [hall a ha]
      simp [hfilter, hn]

/-- C3 witness: on the demo table, the dry run leaves the five rows intact,
and the completed non-dry run over the three candidates returns a count of
three, which equals attempted minus failed. -/
theorem c3_witness :
    manual_clear_stuck none true pAllOk 10000 demoStore =
      (some (allStuckOf none 10000 demoStore).length, demoStore) ∧
    3 = (allStuckOf none 10000 demoStore).length -
      (if false then ([] : List Job)
       else (allStuckOf none 10000 demoStore).filter (fun j => !(pAllOk j.id))).length :=
  ⟨(c3_dry_run_and_count none false pAllOk 10000 demoStore).1,
   (c3_dry_run_and_count none false pAllOk 10000 demoStore).2 3 clearedDemoStore
     (by decide)⟩

/-- C4 counterexample: with two candidates and a save that fails for the
first one, the whole batch aborts (`none`, i.e. the exception propagates),
the table is untouched, and the second candidate — still pending — is never
processed; no failed-id record exists anywhere in the result. -/
theorem c4_counterexample :
    manual_clear_stuck none false persistFailsA 10000 failStoreTwo =
      (none, failStoreTwo) ∧
    jOld2 ∈ allStuckOf none 10000 failStoreTwo ∧
    jOld2.status = "pending" := by decide

/-- C4 amended: a persistence failure is fatal to the batch — if any
candidate's save fails, the run raises instead of returning a count. -/
theorem c4_failure_fatal (ch : Option String) (p : String → Bool) (now : Int)
    (store : List Job)
    (h : ∃ j ∈ allStuckOf ch now store, p j.id = false) :
    (manual_clear_stuck ch false p now store).1 = none := by
  have hf := clearLoop_fail p now (allStuckOf ch now store) 0 store h
  simpa [manual_clear_stuck] using hf

/-- C4 witness: the two-candidate batch whose first save fails returns no
count. -/
theorem c4_witness :
    (manual_clear_stuck none false persistFailsA 10000 failStoreTwo).1 = none :=
  c4_failure_fatal none persistFailsA 10000 failStoreTwo
    ⟨jOld, by decide, by decide⟩

lemma markCleared_id (now : Int) (j : Job) : (markCleared now j).id = j.id := rfl

lemma markCleared_status (now : Int) (j : Job) :
    (markCleared now j).status = "failed" := rfl

lemma mem_saveJob_cases {j x : Job} {s : List Job} (hx : x ∈ saveJob j s) :
    x = j ∨ x ∈ s := by
  rcases List.mem_map.mp hx with ⟨y, hy, hyx⟩
  by_cases hb : y.id = j.id
  · left; rw [← hyx]; simp [hb]
  · right
    have hxy : x = y := by rw [← hyx]; simp [hb]
    rw [hxy]; exact hy

lemma mem_saveJob_id {j x : Job} {s : List Job} (hx : x ∈ saveJob j s)
    (hid : x.id = j.id) : x = j := by
  rcases List.mem_map.mp hx with ⟨y, hy, hyx⟩
  by_cases hb : y.id = j.id
  · rw [← hyx]; simp [hb]
  · have hxy : x = y := by rw [← hyx]; simp [hb]
    exact absurd (hxy ▸ hid) hb

/-- Once every row with a given id is `failed`, it stays `failed` through
the rest of the clearing loop, since saves only write `failed` rows. -/
lemma clearLoop_preserve (p : String → Bool) (now : Int) (i : String) :
    ∀ (l : List Job) (cnt : Nat) (s : List Job) (n : Nat) (s2 : List Job),
      clearLoop false p now l cnt s = (some n, s2) →
      (∀ x ∈ s, x.id = i → x.status = "failed") →
      ∀ x ∈ s2, x.id = i → x.status = "failed" := by
  intro l
  induction l with
  | nil =>
    intro cnt s n s2 h hinv
    simp only [clearLoop, Prod.mk.injEq, Option.some.injEq] at h
    rw [← h.2]
    exact hinv
  | cons j rest ih =>
    intro cnt s n s2 h hinv
    simp only [clearLoop, Bool.false_eq_true, if_false] at h
    by_cases hp : p j.id = true
    · rw [if_pos hp] at h
      apply ih _ _ _ _ h
      intro x hx hxi
      rcases mem_saveJob_cases hx with hxj | hxs
      · rw [hxj]; exact markCleared_status now j
      · exact hinv x hxs hxi
    · rw [if_neg hp] at h
      simp [Prod.ext_iff] at h

/-- Every candidate processed by a completed non-dry clearing loop ends up
with status `failed` in the final table. -/
lemma clearLoop_marks (p : String → Bool) (now : Int) :
    ∀ (l : List Job) (cnt : Nat) (s : List Job) (n : Nat) (s2 : List Job),
      clearLoop false p now l cnt s = (some n, s2) →
      ∀ c ∈ l, ∀ x ∈ s2, x.id = c.id → x.status = "failed" := by
  intro l
  induction l with
  | nil =>
    intro _ _ _ _ _ c hc
    exact absurd hc (List.not_mem_nil c)
  | cons j rest ih =>
    intro cnt s n s2 h c hc
    simp only [clearLoop, Bool.false_eq_true, if_false] at h
    by_cases hp : p j.id = true
    · rw [if_pos hp] at h
      rcases List.mem_cons.mp hc with hcj | hcr
      · subst hcj
        apply clearLoop_preserve p now c.id rest (cnt + 1) _ n s2 h
        intro x hx hxi
        have hxj : x = markCleared now c :=
          mem_saveJob_id hx (hxi.trans (markCleared_id now c).symm)
        rw [hxj]
        exact markCleared_status now c
      · exact ih (cnt + 1) _ n s2 h c hcr
    · rw [if_neg hp] at h
      simp [Prod.ext_iff] at h

lemma allStuckOf_nonterminal {ch : Option String} {now : Int}
    {store : List Job} {j : Job} (h : j ∈ allStuckOf ch now store) :
    j ∈ store ∧ (j.status = "pending" ∨ j.status = "running") := by
  rw [allStuckOf_eq, mem_qsUnion] at h
  rcases h with hps | ⟨hex, _⟩
  · rcases mem_potentiallyStuck.mp hps with ⟨hjq, hst, _⟩
    exact ⟨(filterChannel_sublist ch store).subset hjq, hst⟩
  · rcases mem_expiredJobs.mp hex with ⟨hjq, _, hst⟩
    exact ⟨(filterChannel_sublist ch store).subset hjq, hst⟩

/-- C5: after a non-dry run that successfully cleared its candidates,
candidate selection over the resulting table (at any later clock) excludes
every cleared id: the cleared rows now carry the terminal status `failed`,
which fails the selection's status predicate. -/
theorem c5_reclaim_idempotent (ch : Option String) (p : String → Bool)
    (now now2 : Int) (store : List Job) (n : Nat) (store2 : List Job)
    (hrun : manual_clear_stuck ch false p now store = (some n, store2)) :
    List.Disjoint ((allStuckOf ch now2 store2).map Job.id)
      ((allStuckOf ch now store).map Job.id) := by
  intro i hi2 hi1
  rcases List.mem_map.mp hi2 with ⟨j2, hj2, hj2i⟩
  rcases List.mem_map.mp hi1 with ⟨c, hc, hci⟩
  rcases allStuckOf_nonterminal hj2 with ⟨hj2mem, hst⟩
  have hfailed : j2.status = "failed" :=
    clearLoop_marks p now (allStuckOf ch now store) 0 store n store2
      (by simpa [manual_clear_stuck] using hrun) c hc j2 hj2mem
      (hj2i.trans hci.symm)
  rcases hst with h | h <;> rw [hfailed] at h <;> exact absurd h (by decide)

/-- C5 witness: clearing the demo table's three candidates leaves a table
whose later candidate selection shares no id with the cleared set. -/
theorem c5_witness :
    List.Disjoint ((allStuckOf none 20000 clearedDemoStore).map Job.id)
      ((allStuckOf none 10000 demoStore).map Job.id) :=
  c5_reclaim_idempotent none pAllOk 10000 20000 demoStore 3 clearedDemoStore
    (by decide)

/-- In a sorted-then-truncated list, every element left out by the
truncation is related to every element kept: the kept elements are the
least ones under `r`. -/
lemma take_sorted_least (r : Job → Job → Prop) [DecidableRel r] [IsTotal Job r]
    [IsTrans Job r] (nn : Nat) (l : List Job) :
    ∀ x ∈ l, x ∉ (List.insertionSort r l).take nn →
      ∀ y ∈ (List.insertionSort r l).take nn, r y x := by
  intro x hx hnx y hy
  have hxs : x ∈ List.insertionSort r l :=
    (List.perm_insertionSort r l).mem_iff.mpr hx
  have h2 : List.Pairwise r
      ((List.insertionSort r l).take nn ++ (List.insertionSort r l).drop nn) := by
    rw [List.take_append_drop]
    exact List.sorted_insertionSort r l
  have hxd : x ∈ (List.insertionSort r l).drop nn := by
    have hsplit : x ∈ (List.insertionSort r l).take nn ++
        (List.insertionSort r l).drop nn := by
      rw [List.take_append_drop]
      exact hxs
    rcases List.mem_append.mp hsplit with h | h
    · exact absurd h hnx
    · exact h
  exact (List.pairwise_append.mp h2).2.2 y hy x hxd

lemma jobs_summary_eq (ch : Option String) (store : List Job) :
    jobs_summary ch store =
      (statusCountsOf (filterChannel ch store),
       recentJobsOf (filterChannel ch store)) := rfl

lemma statusCountsOf_keys (q : List Job) :
    (statusCountsOf q).map Prod.fst =
      List.insertionSort (fun a b => a ≤ b) (q.map Job.status).dedup := by
  have hcomp : (Prod.fst ∘ fun s : String =>
      (s, (List.filter (fun j => j.status == s) q).length)) = id := rfl
  rw [statusCountsOf, List.map_map, hcomp, List.map_id]

/-- C7 counterexample: two pending rows tie on `created`, with the row of
larger id first in the snapshot. `order_by('-created')` compares only
`created`, so the recent-jobs list keeps the snapshot order `[b, a]` and is
not tie-broken by id ordering (which would give `[a, b]`). -/
theorem c7_counterexample :
    (jobs_summary none tieStore).2 = [tieB, tieA] ∧
    tieB.created = tieA.created ∧ tieA.id < tieB.id ∧
    (jobs_summary none tieStore).2 ≠ [tieA, tieB] := by
  refine ⟨by decide, by decide, ?_, by decide⟩
  show ("a" : String) < "b"
  rw [String.lt_iff_toList_lt]
  decide

/-- C7 amended: `jobs_summary` yields status counts with keys sorted
ascending and counts matching the row multiplicities, and a recent-jobs
list that is the 5 most-recently-created rows in descending `created`
order; ties on `created` are not broken by id but keep the snapshot
(table) order. -/
theorem c7_summary_shape (ch : Option String) (store : List Job) :
    List.Sorted (fun a b => a ≤ b) ((jobs_summary ch store).1.map Prod.fst) ∧
    (∀ s nn, (s, nn) ∈ (jobs_summary ch store).1 →
      nn = ((filterChannel ch store).filter (fun j => j.status == s)).length ∧
      ∃ j ∈ filterChannel ch store, j.status = s) ∧
    (jobs_summary ch store).2.length = min 5 (filterChannel ch store).length ∧
    List.Sorted createdGE (jobs_summary ch store).2 ∧
    (∀ j ∈ (jobs_summary ch store).2, j ∈ filterChannel ch store) ∧
    (∀ x ∈ filterChannel ch store, x ∉ (jobs_summary ch store).2 →
      ∀ y ∈ (jobs_summary ch store).2, x.created ≤ y.created) := by
  rw [jobs_summary_eq]
  refine ⟨?_, ?_, ?_, ?_, ?_, ?_⟩
  · rw [statusCountsOf_keys]
    exact List.sorted_insertionSort _ _
  · intro s nn hmem
    rcases List.mem_map.mp hmem with ⟨s2, hs2, heq⟩
    rcases Prod.mk.injEq .. ▸ heq with ⟨hs, hn⟩
    subst hs
    refine ⟨hn.symm, ?_⟩
    have hs2d : s2 ∈ (List.map Job.status (filterChannel ch store)).dedup :=
      (List.perm_insertionSort _ _).mem_iff.mp hs2
    rcases List.mem_map.mp (List.mem_dedup.mp hs2d) with ⟨j, hj, hjs⟩
    exact ⟨j, hj, hjs⟩
  · simp [recentJobsOf, List.length_take,
      (List.perm_insertionSort createdGE _).length_eq]
  · exact (List.sorted_insertionSort createdGE _).sublist
      (List.take_sublist 5 _)
  · intro j hj
    exact (List.perm_insertionSort createdGE _).mem_iff.mp
      ((List.take_sublist 5 _).subset hj)
  · intro x hx hnx y hy
    exact take_sorted_least createdGE 5 _ x hx hnx y hy

/-- C7 witness: the shape theorem instantiated on the tied two-row table,
with the count hypothesis discharged for the `pending` entry and the
leftover-row hypothesis discharged vacuously for a cleared store. -/
theorem c7_witness :
    (2 = ((filterChannel none tieStore).filter
        (fun j => j.status == "pending")).length ∧
      ∃ j ∈ filterChannel none tieStore, j.status = "pending") ∧
    (jobs_summary none tieStore).2.length = min 5 (filterChannel none tieStore).length :=
  ⟨(c7_summary_shape none tieStore).2.1 ("pending") 2 (by decide),
   (c7_summary_shape none tieStore).2.2.1⟩

lemma mem_find_old_pending_list {minutes : Int} {ch : Option String}
    {now : Int} {store : List Job} {j : Job} :
    j ∈ find_old_pending_list minutes ch now store ↔
      j ∈ store ∧ j.status = "pending" ∧ j.created < now - minutes * 60 ∧
        (ch = none ∨ ch = some j.channel) := by
  simp only [find_old_pending_list]
  rw [(List.perm_insertionSort createdLE _).mem_iff]
  cases ch with
  | none => simp [List.mem_filter, and_assoc]
  | some c =>
    simp only [List.mem_filter, Bool.and_eq_true, beq_iff_eq, decide_eq_true_eq,
      Option.some.injEq]
    constructor
    · rintro ⟨⟨hj, hst, hcr⟩, hch⟩
      exact ⟨hj, hst, hcr, Or.inr (by rw [hch])⟩
    · rintro ⟨hj, hst, hcr, hch | hch⟩
      · exact absurd hch (Option.some_ne_none c)
      · exact ⟨⟨hj, hst, hcr⟩, hch.symm⟩

/-- C8 counterexample: `find_old_pending_jobs` performs no configuration
validation. A negative duration does not raise a `ConfigurationError`: the
query runs and even returns a job created at the very instant of the call
(the cutoff lies in the future). An unknown channel likewise returns an
ordinary empty result rather than an error. -/
theorem c8_counterexample :
    find_old_pending_jobs (-10) none 1000 [freshPending] = .ok [freshPending] ∧
    find_old_pending_jobs 10 (some ("nosuch")) 10000 demoStore = .ok [] :=
  ⟨rfl, rfl⟩

/-- C8 amended: the operation never fails — it always returns the filtered
list — and with a negative duration the cutoff moves into the future, so
every pending job no newer than the call instant matches. -/
theorem c8_no_validation (minutes : Int) (ch : Option String) (now : Int)
    (store : List Job) :
    find_old_pending_jobs minutes ch now store =
      .ok (find_old_pending_list minutes ch now store) ∧
    (minutes ≤ -1 → ∀ j ∈ store, j.status = "pending" →
      (ch = none ∨ ch = some j.channel) → j.created ≤ now →
      j ∈ find_old_pending_list minutes ch now store) := by
  refine ⟨rfl, ?_⟩
  intro hneg j hj hst hch hcr
  rw [mem_find_old_pending_list]
  refine ⟨hj, hst, ?_, hch⟩
  omega

/-- C8 witness: with `minutes = -10` the fresh pending job created at the
call instant is selected, with no error raised. -/
theorem c8_witness :
    find_old_pending_jobs (-10) none 1000 [freshPending] =
      .ok (find_old_pending_list (-10) none 1000 [freshPending]) ∧
    freshPending ∈ find_old_pending_list (-10) none 1000 [freshPending] :=
  ⟨(c8_no_validation (-10) none 1000 [freshPending]).1,
   (c8_no_validation (-10) none 1000 [freshPending]).2 (by decide) freshPending
     (by decide) rfl (Or.inl rfl) (by decide)⟩

lemma debug_stuck_jobs_eq (ch : Option String) (now : Int) (store : List Job) :
    debug_stuck_jobs ch now store =
      (let pending := List.insertionSort createdLE
        ((filterChannel ch store).filter (fun j => j.status == "pending"))
       (pending.length, (pending.take 10).map (fun j => (j, classifyJob now j)))) := rfl

/-- C10: `debug_stuck_jobs` reports the full pending count but classifies
only the first 10 pending jobs in ascending `created` order: the detail
list has `min 10 total` entries, each a pending job of the channel with its
classification, all earlier-or-equal in `created` than any pending job left
out. -/
theorem c10_detail_first_ten (ch : Option String) (now : Int) (store : List Job) :
    (debug_stuck_jobs ch now store).1 =
      ((filterChannel ch store).filter (fun j => j.status == "pending")).length ∧
    (debug_stuck_jobs ch now store).2.length =
      min 10 (debug_stuck_jobs ch now store).1 ∧
    List.Sorted createdLE ((debug_stuck_jobs ch now store).2.map Prod.fst) ∧
    (∀ pr ∈ (debug_stuck_jobs ch now store).2,
      pr.1 ∈ filterChannel ch store ∧ pr.1.status = "pending" ∧
        pr.2 = classifyJob now pr.1) ∧
    (∀ x ∈ filterChannel ch store, x.status = "pending" →
      x ∉ ((debug_stuck_jobs ch now store).2.map Prod.fst) →
      ∀ y ∈ ((debug_stuck_jobs ch now store).2.map Prod.fst),
        y.created ≤ x.created) := by
  rw [debug_stuck_jobs_eq]
  have hmapfst : ∀ (l : List Job),
      (l.map (fun j => (j, classifyJob now j))).map Prod.fst = l := by
    intro l
    rw [List.map_map]
    rw [show (Prod.fst ∘ fun j : Job => (j, classifyJob now j)) = id from rfl]
    exact List.map_id l
  refine ⟨?_, ?_, ?_, ?_, ?_⟩
  · exact (List.perm_insertionSort createdLE _).length_eq
  · simp [List.length_map, List.length_take]
  · rw [hmapfst]
    exact (List.sorted_insertionSort createdLE _).sublist (List.take_sublist 10 _)
  · intro pr hpr
    rcases List.mem_map.mp hpr with ⟨j, hj, hjeq⟩
    have hjmem : j ∈ (filterChannel ch store).filter (fun j2 => j2.status == "pending") :=
      (List.perm_insertionSort createdLE _).mem_iff.mp
        ((List.take_sublist 10 _).subset hj)
    rcases List.mem_filter.mp hjmem with ⟨hjq, hjst⟩
    rw [← hjeq]
    exact ⟨hjq, by simpa using hjst, rfl⟩
  · intro x hxq hxst hnx y hy
    rw [hmapfst] at hnx hy
    have hxp : x ∈ (filterChannel ch store).filter (fun j => j.status == "pending") :=
      List.mem_filter.mpr ⟨hxq, by simp [hxst]⟩
    exact take_sorted_least createdLE 10 _ x hxp hnx y hy

/-- C10 witness: on the eleven-pending-row table the reported total is 11
while the detail list keeps min 10 11 = 10 classified entries; on the demo
table the old pending job is shown with its classification. -/
theorem c10_witness :
    (debug_stuck_jobs none 10000 bigStore).1 = 11 ∧
    (debug_stuck_jobs none 10000 bigStore).2.length =
      min 10 (debug_stuck_jobs none 10000 bigStore).1 ∧
    (jOld ∈ filterChannel none demoStore ∧ jOld.status = "pending" ∧
      classifyJob 10000 jOld = classifyJob 10000 jOld) :=
  ⟨((c10_detail_first_ten none 10000 bigStore).1).trans (by decide),
   (c10_detail_first_ten none 10000 bigStore).2.1,
   (c10_detail_first_ten none 10000 demoStore).2.2.2.1 (jOld, classifyJob 10000 jOld)
     (by decide)⟩

/-- C9 witness: the default invocation on the demo table leaves the table
unchanged while counting its candidates. -/
theorem c9_witness :
    manual_clear_stuck_default none pAllOk 10000 demoStore =
      (some (allStuckOf none 10000 demoStore).length, demoStore) :=
  (c9_default_is_dry none pAllOk 10000 demoStore).1

end JobsDebugger
